import Mathlib

/-!
Shallow embedding of `.github/scripts/validate_packages_config.py`.

The script reads TOML from stdin, filters out the reserved `[__config__]`
table and every non-table top-level key, re-serializes the surviving
package tables to an output file, and prints the retained package names
space-separated on stdout.

Python strings are modelled as `List Char`.  TOML runtime values are the
closed inductive `Val` (the script's float branch is omitted: IEEE-754
`repr` formatting is outside this embedding, and no claim settled here
depends on it).  `tomllib.loads` is external library code; `mainOn` is
therefore parameterised by its outcome (`Except Str Doc`), exactly the
two ways the `try/except` in `main` can resume.
-/

abbrev Str := List Char

/-- Characters admitted by the character class of `_BARE_KEY_RE`,
`[A-Za-z0-9_-]`. -/
def bareChar (c : Char) : Bool :=
  (decide ('A' ≤ c) && decide (c ≤ 'Z')) ||
  (decide ('a' ≤ c) && decide (c ≤ 'z')) ||
  (decide ('0' ≤ c) && decide (c ≤ '9')) ||
  c == '_' || c == '-'

/-- Truthiness of `_BARE_KEY_RE.match(key)` for the pattern
`^[A-Za-z0-9_-]+$`.  Python's `$` matches at the end of the string *or
just before a newline at the end of the string* (re module docs), so
`"abc\n"` matches even though it contains a newline. -/
def pyBareMatch (k : Str) : Bool :=
  let core := if k.getLast? == some '\n' then k.dropLast else k
  !core.isEmpty && core.all bareChar

/-- Python `s.replace(p, rep)` for a single-character pattern `p`:
every occurrence of `p` (occurrences cannot overlap) is replaced. -/
def pyReplaceChar (p : Char) (rep : Str) (s : Str) : Str :=
  s.flatMap fun c => if c == p then rep else [c]

/-- `key.replace("\\", "\\\\").replace('"', '\\"')` — the escaping used
by `_toml_key` for quoted keys. -/
def escKey (s : Str) : Str :=
  pyReplaceChar '"' ['\\', '"'] (pyReplaceChar '\\' ['\\', '\\'] s)

/-- `value.replace("\\", "\\\\").replace('"', '\\"').replace("\n", "\\n")`
— the escaping used by `_toml_value` for strings. -/
def escStr (s : Str) : Str :=
  pyReplaceChar '\n' ['\\', 'n'] (escKey s)

/-- `_toml_key`: bare if the regex matches, otherwise quoted with
backslash/quote escaping. -/
def tomlKey (k : Str) : Str :=
  if pyBareMatch k then k else '"' :: (escKey k ++ ['"'])

/-- In-memory TOML values as produced by `tomllib` and consumed by
`_toml_value`.  `bool` and `int` are distinct constructors: the Python
source must test `isinstance(value, bool)` *before* `isinstance(value,
int)` because `bool` is a subtype of `int`; the tagged variant realises
that dispatch order. -/
inductive Val where
  | bool : Bool → Val
  | int : Int → Val
  | str : Str → Val
  | list : List Val → Val
  | dict : List (Str × Val) → Val

instance : Inhabited Val := ⟨Val.dict []⟩

/-- `isinstance(value, dict)`. -/
def Val.isDict : Val → Bool
  | .dict _ => true
  | _ => false

/-- `table.items()` for a value statically known to be a dict
(`_write_packages` is annotated `dict[str, dict]`); other constructors
are unreachable there. -/
def Val.dictEntries : Val → List (Str × Val)
  | .dict kvs => kvs
  | _ => []

/-- Python `str(i)` for an int: decimal digits, `-` sign for negatives. -/
def strOfInt (i : Int) : Str := (toString i).data

/-- `sep.join(xs)`. -/
def joinWith (sep : Str) : List Str → Str
  | [] => []
  | [x] => x
  | x :: y :: ys => x ++ sep ++ joinWith sep (y :: ys)

mutual

/-- `_toml_value`, minus the float branch (see module comment) and the
`str(value)` fallback (unreachable: `Val` is the closed set of kinds
`tomllib` produces). -/
def tomlValue : Val → Str
  | .bool b => if b then "true".data else "false".data
  | .int i => strOfInt i
  | .str s => '"' :: (escStr s ++ ['"'])
  | .list xs => '[' :: (joinWith ", ".data (tomlValueList xs) ++ [']'])
  | .dict kvs => '\x7b' :: (joinWith ", ".data (tomlPairList kvs) ++ ['\x7d'])

/-- The generator `(_toml_value(item) for item in value)`. -/
def tomlValueList : List Val → List Str
  | [] => []
  | v :: vs => tomlValue v :: tomlValueList vs

/-- The generator producing `f"{_toml_key(k)} = {_toml_value(v)}"` pairs. -/
def tomlPairList : List (Str × Val) → List Str
  | [] => []
  | (k, v) :: rest => (tomlKey k ++ " = ".data ++ tomlValue v) :: tomlPairList rest

end

/-- The parsed document: a Python dict in insertion order. -/
abbrev Doc := List (Str × Val)

/-- `"__config__"`. -/
def cfgKey : Str := "__config__".data

/-- `"__config__" in data`. -/
def hasKey (data : Doc) (k : Str) : Bool :=
  data.any fun kv => kv.1 == k

/-- `[k for k, v in data.items() if not isinstance(v, dict)]`. -/
def nonTableKeys (data : Doc) : List Str :=
  (data.filter fun kv => !kv.2.isDict).map Prod.fst

/-- `{k: v for k, v in data.items() if k != "__config__" and isinstance(v, dict)}`. -/
def packagesOf (data : Doc) : Doc :=
  data.filter fun kv => !(kv.1 == cfgKey) && kv.2.isDict

/-- One `f"{_toml_key(key)} = {_toml_value(val)}\n"` line per table item. -/
def entryLines : List (Str × Val) → Str
  | [] => []
  | (k, v) :: rest => tomlKey k ++ " = ".data ++ tomlValue v ++ ['\n'] ++ entryLines rest

/-- `_write_packages`: the full text written to the output file. -/
def writePackages : Doc → Str
  | [] => []
  | (name, table) :: rest =>
      '[' :: (tomlKey name ++ "]\n".data) ++ entryLines table.dictEntries
        ++ ['\n'] ++ writePackages rest

/-- `f"Usage: {sys.argv[0]} <outfile>"`. -/
def usageMsg (prog : Str) : Str := "Usage: ".data ++ prog ++ " <outfile>".data

/-- `f"::error::PACKAGES_CONFIG is not valid TOML: {exc}"`. -/
def parseErrMsg (e : Str) : Str :=
  "::error::PACKAGES_CONFIG is not valid TOML: ".data ++ e

/-- The `[__config__]` warning (adjacent string literals concatenated). -/
def cfgWarnMsg : Str :=
  "::warning::PACKAGES_CONFIG contains [__config__]; ignoring (auto-generated)".data

/-- Leading fixed part of the non-table-keys warning. -/
def ntWarnTag : Str :=
  "::warning::Ignoring non-table top-level keys in PACKAGES_CONFIG: ".data

/-- The combined non-table-keys warning, keys comma-joined. -/
def ntWarnMsg (nt : List Str) : Str := ntWarnTag ++ joinWith ", ".data nt

/-- `"::error::PACKAGES_CONFIG contains no package sections"`. -/
def emptyErrMsg : Str :=
  "::error::PACKAGES_CONFIG contains no package sections".data

/-- Observable effects of one run of `main`: exit status, the lines
printed to stderr in order, the line printed to stdout (if reached), and
the text written to the output file (if reached). -/
structure Outcome where
  exitCode : Nat
  errOut : List Str
  stdOut : Option Str
  outFile : Option Str

/-- `main`, with `sys.argv = prog :: args` and the result of
`tomllib.loads(sys.stdin.read())` abstracted as `pr` (the argument is
only consulted after the arity check, mirroring that stdin is only read
then). -/
def mainOn (prog : Str) (args : List Str) (pr : Except Str Doc) : Outcome :=
  if (prog :: args).length ≠ 2 then
    { exitCode := 2, errOut := [usageMsg prog], stdOut := none, outFile := none }
  else
    match pr with
    | .error e =>
        { exitCode := 1, errOut := [parseErrMsg e], stdOut := none, outFile := none }
    | .ok data =>
        let cfgW := if hasKey data cfgKey then [cfgWarnMsg] else []
        let nt := nonTableKeys data
        let ntW := if nt.isEmpty then [] else [ntWarnMsg nt]
        let pkgs := packagesOf data
        if pkgs.isEmpty then
          { exitCode := 1, errOut := cfgW ++ ntW ++ [emptyErrMsg],
            stdOut := none, outFile := none }
        else
          { exitCode := 0, errOut := cfgW ++ ntW,
            stdOut := some (joinWith " ".data (pkgs.map Prod.fst)),
            outFile := some (writePackages pkgs) }

/-- Spec-side description of the Filtered Set (for the refinement claims):
the document's top-level pairs with the reserved key removed and then
every pair whose value is not a mapping removed, order preserved. -/
def specFiltered (data : Doc) : Doc :=
  (data.filter fun kv => !(kv.1 == cfgKey)).filter fun kv => kv.2.isDict

/-- Spec-side single-character escaping rule for string values:
backslash → double-backslash, double-quote → backslash-double-quote,
newline → backslash-n, all other characters unchanged. -/
def specEscapeChar (c : Char) : Str :=
  if c = '\\' then ['\\', '\\']
  else if c = '"' then ['\\', '"']
  else if c = '\n' then ['\\', 'n']
  else [c]

/-- Spec-side escaping of a whole string, applied character by character. -/
def specEscape (s : Str) : Str := s.flatMap specEscapeChar

/-- Does a stderr line carry the non-table-keys warning?  (Tested by its
fixed leading text.) -/
def isNtWarn (m : Str) : Bool := m.take ntWarnTag.length == ntWarnTag

/-- Does a stderr line carry a warning notice (as opposed to an error)? -/
def isWarn (m : Str) : Bool := m.take "::warning::".data.length == "::warning::".data

lemma pyReplaceChar_append (p : Char) (r : Str) (xs ys : Str) :
    pyReplaceChar p r (xs ++ ys) = pyReplaceChar p r xs ++ pyReplaceChar p r ys := by
  simp [pyReplaceChar]

lemma escChar_step (c : Char) :
    pyReplaceChar '\n' ['\\', 'n']
      (pyReplaceChar '"' ['\\', '"'] (if c == '\\' then ['\\', '\\'] else [c])) =
    specEscapeChar c := by
  by_cases h1 : c = '\\'
  · subst h1; rfl
  · by_cases h2 : c = '"'
    · subst h2; rfl
    · by_cases h3 : c = '\n'
      · subst h3; rfl
      · simp [pyReplaceChar, specEscapeChar, h1, h2, h3]

lemma escStr_cons (c : Char) (t : Str) :
    escStr (c :: t) = specEscapeChar c ++ escStr t := by
  unfold escStr escKey
  rw [show pyReplaceChar '\\' ['\\', '\\'] (c :: t) =
        (if c == '\\' then ['\\', '\\'] else [c]) ++ pyReplaceChar '\\' ['\\', '\\'] t from
      by simp [pyReplaceChar]]
  rw [pyReplaceChar_append, pyReplaceChar_append, escChar_step]

lemma escStr_eq_specEscape (s : Str) : escStr s = specEscape s := by
  induction s with
  | nil => rfl
  | cons c t ih => rw [escStr_cons, ih]; simp [specEscape]

lemma packagesOf_eq_specFiltered (data : Doc) : packagesOf data = specFiltered data := by
  unfold packagesOf specFiltered
  rw [List.filter_filter]
  have hp : (fun kv : Str × Val => kv.2.isDict && !(kv.1 == cfgKey)) =
      fun kv : Str × Val => !(kv.1 == cfgKey) && kv.2.isDict := by
    funext kv; cases (kv.1 == cfgKey) <;> cases kv.2.isDict <;> rfl
  rw [hp]

lemma take_append_of_le_len {α : Type} {l1 l2 : List α} {n : Nat} (h : n ≤ l1.length) :
    (l1 ++ l2).take n = l1.take n := by
  induction l1 generalizing n with
  | nil =>
      have : n = 0 := Nat.le_zero.1 h
      simp [this]
  | cons a t ih =>
      cases n with
      | zero => simp
      | succ m =>
          simp only [List.cons_append, List.take_succ_cons]
          rw [ih (Nat.succ_le_succ_iff.1 (by simpa using h))]

lemma isNtWarn_ntWarnMsg (nt : List Str) : isNtWarn (ntWarnMsg nt) = true := by
  simp [isNtWarn, ntWarnMsg, List.take_left]

lemma isNtWarn_cfgWarnMsg : isNtWarn cfgWarnMsg = false := by decide

lemma isNtWarn_emptyErrMsg : isNtWarn emptyErrMsg = false := by decide

lemma isWarn_cfgWarnMsg : isWarn cfgWarnMsg = true := by decide

lemma isWarn_emptyErrMsg : isWarn emptyErrMsg = false := by decide

lemma isWarn_ntWarnMsg (nt : List Str) : isWarn (ntWarnMsg nt) = true := by
  unfold isWarn ntWarnMsg
  rw [take_append_of_le_len (by decide)]
  decide

lemma mainOn_ok_errOut (prog arg : Str) (data : Doc) :
    (mainOn prog [arg] (.ok data)).errOut =
      (if hasKey data cfgKey then [cfgWarnMsg] else []) ++
      (if (nonTableKeys data).isEmpty then [] else [ntWarnMsg (nonTableKeys data)]) ++
      (if (packagesOf data).isEmpty then [emptyErrMsg] else []) := by
  by_cases he : (packagesOf data).isEmpty <;> simp [mainOn, he]

lemma mainOn_ok_exitCode (prog arg : Str) (data : Doc) :
    (mainOn prog [arg] (.ok data)).exitCode =
      (if (packagesOf data).isEmpty then 1 else 0) := by
  by_cases he : (packagesOf data).isEmpty <;> simp [mainOn, he]

lemma keys_nodup_val_eq {data : Doc} (hnd : (data.map Prod.fst).Nodup)
    {k : Str} {v1 v2 : Val} (h1 : (k, v1) ∈ data) (h2 : (k, v2) ∈ data) : v1 = v2 := by
  induction data with
  | nil => cases h1
  | cons kv rest ih =>
      have hhd : kv.1 ∉ rest.map Prod.fst := (List.nodup_cons.1 (by simpa using hnd)).1
      have htl : (rest.map Prod.fst).Nodup := (List.nodup_cons.1 (by simpa using hnd)).2
      rcases List.mem_cons.1 h1 with e1 | m1
      · rcases List.mem_cons.1 h2 with e2 | m2
        · have h := e1.trans e2.symm
          injection h with h1 h2
        · have hk : k ∈ rest.map Prod.fst := List.mem_map_of_mem Prod.fst m2
          rw [← e1] at hhd
          exact absurd hk hhd
      · rcases List.mem_cons.1 h2 with e2 | m2
        · have hk : k ∈ rest.map Prod.fst := List.mem_map_of_mem Prod.fst m1
          rw [← e2] at hhd
          exact absurd hk hhd
        · exact ih htl m1 m2

lemma nodup_not_in_packages {data : Doc} (hnd : (data.map Prod.fst).Nodup) :
    ∀ k ∈ nonTableKeys data, k ∉ (packagesOf data).map Prod.fst := by
  intro k hk hp
  obtain ⟨kv1, hm1, he1⟩ := List.mem_map.1 hk
  obtain ⟨kv2, hm2, he2⟩ := List.mem_map.1 hp
  have hd1 : kv1.2.isDict = false := by
    have := (List.mem_filter.1 hm1).2; simpa using this
  have hd2 : kv2.2.isDict = true := by
    have := (List.mem_filter.1 hm2).2; simp at this; exact this.2
  have hm1' : (k, kv1.2) ∈ data := by
    have := (List.mem_filter.1 hm1).1; rwa [show kv1 = (k, kv1.2) from by
      cases kv1; simp_all] at this
  have hm2' : (k, kv2.2) ∈ data := by
    have := (List.mem_filter.1 hm2).1; rwa [show kv2 = (k, kv2.2) from by
      cases kv2; simp_all] at this
  rw [keys_nodup_val_eq hnd hm1' hm2'] at hd1
  rw [hd2] at hd1
  exact Bool.noConfusion hd1

lemma packagesOf_erase_cfg (data : Doc) :
    packagesOf data = packagesOf (data.filter fun kv => !(kv.1 == cfgKey)) := by
  unfold packagesOf
  rw [List.filter_filter]
  have hp : (fun kv : Str × Val => (!(kv.1 == cfgKey) && kv.2.isDict) && !(kv.1 == cfgKey)) =
      fun kv : Str × Val => !(kv.1 == cfgKey) && kv.2.isDict := by
    funext kv; cases (kv.1 == cfgKey) <;> cases kv.2.isDict <;> rfl
  rw [hp]

/-- C3 (code defect): the key `"abc\n"` is emitted unquoted and unchanged
by `_toml_key` — `_BARE_KEY_RE.match` accepts it because Python's `$`
matches before a trailing newline — even though it contains a newline,
which is not in the bare-key character class `[A-Za-z0-9_-]`.  The
resulting section header is not valid TOML, so the claimed
iff (bare exactly for `[A-Za-z0-9_-]+` keys) and the re-parse guarantee
both fail on the code. -/
theorem tomlKey_trailing_newline_bug :
    tomlKey "abc\n".data = "abc\n".data ∧
    '\n' ∈ "abc\n".data ∧ bareChar '\n' = false := by
  refine ⟨by decide, by decide, by decide⟩

/-- C4: for every string value, `_toml_value` yields the double-quoted
form of the character-by-character escaping described by the spec:
backslash → double-backslash, double-quote → backslash-double-quote,
newline → backslash-n, every other character unchanged. -/
theorem tomlValue_str_spec_escaping (s : Str) :
    tomlValue (.str s) = '"' :: (specEscape s ++ ['"']) := by
  simp [tomlValue, escStr_eq_specEscape]

/-- C5: a boolean is rendered as the literal `true`/`false`, and never as
the decimal numeral the integer branch would produce for Python's
`int(b)` (`1`/`0`): the `bool` case is dispatched before the `int` case. -/
theorem tomlValue_bool_not_int (b : Bool) :
    tomlValue (.bool b) = (if b then "true".data else "false".data) ∧
    tomlValue (.bool b) ≠ strOfInt (if b then 1 else 0) := by
  cases b
  · exact ⟨by simp [tomlValue], by simp [tomlValue]; decide⟩
  · exact ⟨by simp [tomlValue], by simp [tomlValue]; decide⟩

/-- C7: when TOML decoding fails with diagnostic `e`, the run exits 1,
stderr carries exactly one error notice which contains `e`, and neither
the output file nor the stdout summary line is produced. -/
theorem mainOn_parse_error (prog arg e : Str) :
    mainOn prog [arg] (.error e) =
      { exitCode := 1, errOut := [parseErrMsg e], stdOut := none, outFile := none } ∧
    ∃ pre, parseErrMsg e = pre ++ e := by
  exact ⟨by simp [mainOn], ⟨_, rfl⟩⟩

/-- C8: with an argument count other than one, the run writes the usage
message to stderr and exits 2, producing no other output, and the
outcome does not depend on the input at all (stdin is never read). -/
theorem mainOn_usage_error (prog : Str) (args : List Str) (pr pr' : Except Str Doc)
    (h : args.length ≠ 1) :
    mainOn prog args pr =
      { exitCode := 2, errOut := [usageMsg prog], stdOut := none, outFile := none } ∧
    mainOn prog args pr = mainOn prog args pr' := by
  have hc : (prog :: args).length ≠ 2 := by
    simp only [List.length_cons]
    omega
  unfold mainOn
  rw [if_pos hc, if_pos hc]
  exact ⟨rfl, rfl⟩

/-- C8 witness: zero user-supplied arguments hit the usage error for two
different (never-consulted) stdin parses. -/
theorem mainOn_usage_error_witness :
    (([] : List Str).length ≠ 1) ∧
    (mainOn "script".data [] (.ok []) =
      { exitCode := 2, errOut := [usageMsg "script".data],
        stdOut := none, outFile := none } ∧
     mainOn "script".data [] (.ok []) = mainOn "script".data [] (.error "x".data)) :=
  ⟨by decide, mainOn_usage_error "script".data [] (.ok []) (.error "x".data) (by decide)⟩

/-- C1: for a parsed document with at least one non-reserved table-valued
top-level entry, the filtered mapping is exactly the document's top-level
pairs minus `__config__` minus non-table keys in original order, the run
exits 0, the output file gets the serialized filtered mapping, and stdout
gets its keys space-joined. -/
theorem mainOn_success_filtered (prog arg : Str) (data : Doc)
    (hx : ∃ kv ∈ data, kv.1 ≠ cfgKey ∧ kv.2.isDict = true) :
    packagesOf data = specFiltered data ∧
    (mainOn prog [arg] (.ok data)).exitCode = 0 ∧
    (mainOn prog [arg] (.ok data)).outFile = some (writePackages (specFiltered data)) ∧
    (mainOn prog [arg] (.ok data)).stdOut =
      some (joinWith " ".data ((specFiltered data).map Prod.fst)) := by
  obtain ⟨kv, hmem, hne, hdict⟩ := hx
  have hpkg : kv ∈ packagesOf data :=
    List.mem_filter.2 ⟨hmem, by simp [hdict, hne]⟩
  have hne' : (packagesOf data).isEmpty = false :=
    List.isEmpty_eq_false.2 (List.ne_nil_of_mem hpkg)
  have hmain : mainOn prog [arg] (.ok data) =
      { exitCode := 0,
        errOut := (if hasKey data cfgKey then [cfgWarnMsg] else []) ++
          (if (nonTableKeys data).isEmpty then [] else [ntWarnMsg (nonTableKeys data)]),
        stdOut := some (joinWith " ".data ((packagesOf data).map Prod.fst)),
        outFile := some (writePackages (packagesOf data)) } := by
    simp only [mainOn]
    rw [if_neg (by simp)]
    rw [if_neg (by simp [hne'])]
  refine ⟨packagesOf_eq_specFiltered data, ?_⟩
  rw [hmain, packagesOf_eq_specFiltered]
  exact ⟨rfl, rfl, rfl⟩

/-- C1 witness: a document with one non-table key and one package table. -/
theorem mainOn_success_filtered_witness :
    (∃ kv ∈ ([("bare".data, Val.int 1),
              ("pkg".data, Val.dict [("v".data, Val.int 2)])] : Doc),
        kv.1 ≠ cfgKey ∧ kv.2.isDict = true) ∧
    (packagesOf ([("bare".data, Val.int 1),
                  ("pkg".data, Val.dict [("v".data, Val.int 2)])] : Doc) =
        specFiltered [("bare".data, Val.int 1),
                      ("pkg".data, Val.dict [("v".data, Val.int 2)])] ∧
     (mainOn "script".data ["out".data]
        (.ok [("bare".data, Val.int 1),
              ("pkg".data, Val.dict [("v".data, Val.int 2)])])).exitCode = 0 ∧
     (mainOn "script".data ["out".data]
        (.ok [("bare".data, Val.int 1),
              ("pkg".data, Val.dict [("v".data, Val.int 2)])])).outFile =
        some (writePackages (specFiltered
          [("bare".data, Val.int 1),
           ("pkg".data, Val.dict [("v".data, Val.int 2)])])) ∧
     (mainOn "script".data ["out".data]
        (.ok [("bare".data, Val.int 1),
              ("pkg".data, Val.dict [("v".data, Val.int 2)])])).stdOut =
        some (joinWith " ".data ((specFiltered
          [("bare".data, Val.int 1),
           ("pkg".data, Val.dict [("v".data, Val.int 2)])]).map Prod.fst))) :=
  ⟨⟨("pkg".data, Val.dict [("v".data, Val.int 2)]), by simp, by decide, rfl⟩,
   mainOn_success_filtered "script".data "out".data _
     ⟨("pkg".data, Val.dict [("v".data, Val.int 2)]), by simp, by decide, rfl⟩⟩

/-- C6: if the document parses but the filtered mapping is empty, the run
emits the empty-config error notice, exits 1, and writes neither the
output file nor the stdout summary. -/
theorem mainOn_empty_config (prog arg : Str) (data : Doc)
    (h : packagesOf data = []) :
    (mainOn prog [arg] (.ok data)).exitCode = 1 ∧
    emptyErrMsg ∈ (mainOn prog [arg] (.ok data)).errOut ∧
    (mainOn prog [arg] (.ok data)).stdOut = none ∧
    (mainOn prog [arg] (.ok data)).outFile = none := by
  have he : (packagesOf data).isEmpty = true := by simp [h]
  refine ⟨?_, ?_, ?_, ?_⟩ <;> simp [mainOn, he]

/-- C6 witness: a document whose only entry is the reserved table. -/
theorem mainOn_empty_config_witness :
    packagesOf ([(cfgKey, Val.dict [("a".data, Val.int 1)])] : Doc) = [] ∧
    ((mainOn "script".data ["out".data]
        (.ok [(cfgKey, Val.dict [("a".data, Val.int 1)])])).exitCode = 1 ∧
     emptyErrMsg ∈ (mainOn "script".data ["out".data]
        (.ok [(cfgKey, Val.dict [("a".data, Val.int 1)])])).errOut ∧
     (mainOn "script".data ["out".data]
        (.ok [(cfgKey, Val.dict [("a".data, Val.int 1)])])).stdOut = none ∧
     (mainOn "script".data ["out".data]
        (.ok [(cfgKey, Val.dict [("a".data, Val.int 1)])])).outFile = none) :=
  ⟨rfl, mainOn_empty_config "script".data "out".data _ rfl⟩

/-- C9: when some top-level values are not tables, exactly one combined
warning is emitted, carrying all those keys comma-joined in document
order; those keys are excluded from the filtered mapping, and the exit
status is decided solely by whether any package survives (the warning is
non-fatal).  When every top-level value is a table, no such warning is
emitted. -/
theorem mainOn_non_table_keys (prog arg : Str) (data : Doc)
    (hnd : (data.map Prod.fst).Nodup) :
    (nonTableKeys data ≠ [] →
      (mainOn prog [arg] (.ok data)).errOut.countP isNtWarn = 1 ∧
      ntWarnMsg (nonTableKeys data) ∈ (mainOn prog [arg] (.ok data)).errOut ∧
      (∀ k ∈ nonTableKeys data, k ∉ (packagesOf data).map Prod.fst) ∧
      (mainOn prog [arg] (.ok data)).exitCode =
        (if (packagesOf data).isEmpty then 1 else 0)) ∧
    (nonTableKeys data = [] →
      (mainOn prog [arg] (.ok data)).errOut.countP isNtWarn = 0) := by
  constructor
  · intro hnt
    have hntE : (nonTableKeys data).isEmpty = false :=
      List.isEmpty_eq_false.2 hnt
    refine ⟨?_, ?_, nodup_not_in_packages hnd, mainOn_ok_exitCode prog arg data⟩
    · rw [mainOn_ok_errOut]
      by_cases hk : hasKey data cfgKey = true <;>
        by_cases he : (packagesOf data).isEmpty = true <;>
        simp [hk, he, hntE, List.countP_append, List.countP_cons,
          isNtWarn_ntWarnMsg, isNtWarn_cfgWarnMsg, isNtWarn_emptyErrMsg]
    · rw [mainOn_ok_errOut]
      simp [hntE]
  · intro hz
    rw [mainOn_ok_errOut]
    by_cases hk : hasKey data cfgKey = true <;>
      by_cases he : (packagesOf data).isEmpty = true <;>
      simp [hk, he, hz, List.countP_append, List.countP_cons,
        isNtWarn_cfgWarnMsg, isNtWarn_emptyErrMsg]

/-- C9 witness: one non-table key `bare` next to one package table. -/
theorem mainOn_non_table_keys_witness :
    ((([("bare".data, Val.int 1), ("pkg".data, Val.dict [])] : Doc).map Prod.fst).Nodup ∧
     nonTableKeys ([("bare".data, Val.int 1), ("pkg".data, Val.dict [])] : Doc) ≠ []) ∧
    ((mainOn "script".data ["out".data]
        (.ok [("bare".data, Val.int 1), ("pkg".data, Val.dict [])])).errOut.countP
          isNtWarn = 1 ∧
     ntWarnMsg (nonTableKeys ([("bare".data, Val.int 1), ("pkg".data, Val.dict [])] : Doc)) ∈
       (mainOn "script".data ["out".data]
         (.ok [("bare".data, Val.int 1), ("pkg".data, Val.dict [])])).errOut) := by
  have h := mainOn_non_table_keys "script".data "out".data
    [("bare".data, Val.int 1), ("pkg".data, Val.dict [])] (by decide)
  exact ⟨⟨by decide, by decide⟩, (h.1 (by decide)).1, (h.1 (by decide)).2.1⟩

/-- C10: when `__config__` is present with a non-table value, both the
reserved-key warning and the non-table-keys warning are emitted (the
latter listing `__config__`), the run's stderr carries exactly two
warning notices, and the filtered mapping is the same as for the
document with `__config__` removed. -/
theorem mainOn_config_non_table (prog arg : Str) (data : Doc) (v : Val)
    (hmem : (cfgKey, v) ∈ data) (hv : v.isDict = false) :
    cfgWarnMsg ∈ (mainOn prog [arg] (.ok data)).errOut ∧
    cfgKey ∈ nonTableKeys data ∧
    ntWarnMsg (nonTableKeys data) ∈ (mainOn prog [arg] (.ok data)).errOut ∧
    (mainOn prog [arg] (.ok data)).errOut.countP isWarn = 2 ∧
    packagesOf data = packagesOf (data.filter fun kv => !(kv.1 == cfgKey)) := by
  have hhk : hasKey data cfgKey = true := by
    unfold hasKey
    exact List.any_eq_true.2 ⟨(cfgKey, v), hmem, by simp⟩
  have hcm : cfgKey ∈ nonTableKeys data := by
    unfold nonTableKeys
    exact List.mem_map.2 ⟨(cfgKey, v), List.mem_filter.2 ⟨hmem, by simp [hv]⟩, rfl⟩
  have hntE : (nonTableKeys data).isEmpty = false :=
    List.isEmpty_eq_false.2 (List.ne_nil_of_mem hcm)
  refine ⟨?_, hcm, ?_, ?_, packagesOf_erase_cfg data⟩
  · rw [mainOn_ok_errOut]
    simp [hhk]
  · rw [mainOn_ok_errOut]
    simp [hntE]
  · rw [mainOn_ok_errOut]
    by_cases he : (packagesOf data).isEmpty = true <;>
      simp [hhk, hntE, he, List.countP_append, List.countP_cons,
        isWarn_cfgWarnMsg, isWarn_ntWarnMsg, isWarn_emptyErrMsg]

/-- C10 witness: `__config__` bound to an integer next to one package. -/
theorem mainOn_config_non_table_witness :
    ((cfgKey, Val.int 1) ∈ ([(cfgKey, Val.int 1), ("pkg".data, Val.dict [])] : Doc) ∧
     (Val.int 1).isDict = false) ∧
    (cfgWarnMsg ∈ (mainOn "script".data ["out".data]
        (.ok [(cfgKey, Val.int 1), ("pkg".data, Val.dict [])])).errOut ∧
     cfgKey ∈ nonTableKeys ([(cfgKey, Val.int 1), ("pkg".data, Val.dict [])] : Doc) ∧
     (mainOn "script".data ["out".data]
        (.ok [(cfgKey, Val.int 1), ("pkg".data, Val.dict [])])).errOut.countP isWarn = 2) := by
  have h := mainOn_config_non_table "script".data "out".data
    [(cfgKey, Val.int 1), ("pkg".data, Val.dict [])] (Val.int 1)
    (List.mem_cons_self _ _) rfl
  exact ⟨⟨List.mem_cons_self _ _, rfl⟩, h.1, h.2.1, h.2.2.2.1⟩
